import Mathlib

/-!
Shallow embedding of the dsl-go S-expression codec:
tokenizer and generic parser (internal/parse/sexpr.go, Participle lexer rules
plus the `Sexpr`/`List`/`Atom` grammar), the semantic mapper
(`sexprToRequest` and its helpers), and the canonical printer
(`ToSexpr`/`printValue` from internal/print).

Modelling conventions:
* Go maps (`map[string]T`) are association lists with insert-or-replace
  writes; the list order stands for Go's (unspecified) iteration order.
  A nil map and an empty map are both the empty list.
* `time.Time` is `Int`: seconds since 0001-01-01T00:00:00 UTC, so the Go
  zero time is `0` and `IsZero` is `= 0`.  `time.Now()` is passed in as an
  explicit `now` parameter.  Sub-second precision is not modelled (no claim
  touches it).
* `interface{}` values built by `atomValue` are the closed sum `GoVal`;
  the dynamic Go type of `.str`, `.sym` and `.numText` is `string`, which is
  why `printValue` quotes all three.  `float64` carries its source literal:
  IEEE semantics are not modelled and no theorem relies on float identity.
* The parser is built with no Elide option (buildParser passes only the
  lexer and Unquote), so Whitespace and Comment tokens reach the grammar,
  whose productions never reference them: any input containing whitespace
  or a comment fails to parse.  The tokenizer here therefore emits those
  tokens rather than discarding them.
* Fallible Go code returns `Except String` carrying the `fmt.Errorf`
  message.  Go slice-index panics on inputs the callers never produce
  (for example an empty list where `Elements[0]` is read) are modelled with
  `head?`/`get?`, noted at each site.
-/

namespace DslGo

/-! ## Go map as an association list (insert-or-replace) -/

def goMapInsert {α : Type} (m : List (String × α)) (k : String) (v : α) :
    List (String × α) :=
  match m with
  | [] => [(k, v)]
  | (k', v') :: rest =>
      if k' = k then (k, v) :: rest else (k', v') :: goMapInsert rest k v

def goMapGet {α : Type} (m : List (String × α)) (k : String) : Option α :=
  match m with
  | [] => none
  | (k', v') :: rest => if k' = k then some v' else goMapGet rest k

/-! ## Tokenizer (lexer.MustSimple rules of internal/parse/sexpr.go) -/

inductive Token where
  | whitespace (s : String)
  | comment (s : String)
  | lparen
  | rparen
  | arrow
  | str (s : String)
  | colonIdent (s : String)
  | ident (s : String)
  | number (s : String)
  deriving DecidableEq, Repr

def isSpaceChar (c : Char) : Bool :=
  c = ' ' || c = '\t' || c = '\n' || c = '\r' || c = '\x0c'

def isAlphaChar (c : Char) : Bool :=
  ('a' ≤ c && c ≤ 'z') || ('A' ≤ c && c ≤ 'Z')

def isDigitChar (c : Char) : Bool :=
  '0' ≤ c && c ≤ '9'

def isIdentContChar (c : Char) : Bool :=
  isAlphaChar c || isDigitChar c || c = '_' || c = '-'

/-- Longest run of identifier-continuation characters (`[A-Za-z0-9_-]*`). -/
def takeIdentCont : List Char → List Char × List Char
  | [] => ([], [])
  | c :: cs =>
      if isIdentContChar c then
        let (tk, rest) := takeIdentCont cs
        (c :: tk, rest)
      else ([], c :: cs)

def takeDigits : List Char → List Char × List Char
  | [] => ([], [])
  | c :: cs =>
      if isDigitChar c then
        let (tk, rest) := takeDigits cs
        (c :: tk, rest)
      else ([], c :: cs)

/-- Longest run of whitespace characters (`\s+`). -/
def takeSpaces : List Char → List Char × List Char
  | [] => ([], [])
  | c :: cs =>
      if isSpaceChar c then
        let (tk, rest) := takeSpaces cs
        (c :: tk, rest)
      else ([], c :: cs)

/-- Characters of a line comment up to (excluding) the newline (`[^\n]*`). -/
def takeToEol : List Char → List Char × List Char
  | [] => ([], [])
  | c :: cs =>
      if c = '\n' then ([], c :: cs)
      else
        let (tk, rest) := takeToEol cs
        (c :: tk, rest)

/-- Scan the body of a `String` token after the opening quote, following the
regex `"(?:\\.|[^"])*"`: a backslash consumes the next character unless it is
a newline (where `.` does not match and `[^"]` takes the backslash alone).
Returns the raw body characters and the rest after the closing quote. -/
def scanStringBody : Nat → List Char → Option (List Char × List Char)
  | 0, _ => none
  | _ + 1, [] => none
  | fuel + 1, c :: cs =>
      if c = '"' then some ([], cs)
      else if c = '\\' then
        match cs with
        | c2 :: cs2 =>
            if c2 = '\n' then
              match scanStringBody fuel cs with
              | some (body, rest) => some (c :: body, rest)
              | none => none
            else
              match scanStringBody fuel cs2 with
              | some (body, rest) => some (c :: c2 :: body, rest)
              | none => none
        | [] =>
            match scanStringBody fuel cs with
            | some (body, rest) => some (c :: body, rest)
            | none => none
      else
        match scanStringBody fuel cs with
        | some (body, rest) => some (c :: body, rest)
        | none => none

/-- Unquote a double-quoted Go string literal body (strconv.Unquote as applied
by the parser's Unquote("String") option): handles the standard escapes and
rejects raw newlines, invalid escapes and a trailing backslash. -/
def goUnquoteBody : Nat → List Char → Option (List Char)
  | 0, _ => none
  | _ + 1, [] => some []
  | fuel + 1, c :: cs =>
      if c = '\n' then none
      else if c = '\\' then
        match cs with
        | [] => none
        | e :: cs2 =>
            let unescaped : Option Char :=
              if e = '"' then some '"'
              else if e = '\\' then some '\\'
              else if e = 'n' then some '\n'
              else if e = 't' then some '\t'
              else if e = 'r' then some '\r'
              else if e = 'a' then some '\x07'
              else if e = 'b' then some '\x08'
              else if e = 'f' then some '\x0c'
              else if e = 'v' then some '\x0b'
              else none
            match unescaped with
            | some u =>
                match goUnquoteBody fuel cs2 with
                | some rest => some (u :: rest)
                | none => none
            | none => none
      else
        match goUnquoteBody fuel cs with
        | some rest => some (c :: rest)
        | none => none

/-- One lexer step at the current position: rules are tried in the source
order Whitespace, Comment, LParen, RParen, Arrow, String, ColonIdent, Ident,
Number; `none` means no rule matches (a lexer error). -/
def nextToken : List Char → Option (Token × List Char)
  | [] => none
  | c :: cs =>
      if isSpaceChar c then
        let (run, rest) := takeSpaces cs
        some (Token.whitespace (String.mk (c :: run)), rest)
      else if c = ';' then
        let (run, rest) := takeToEol cs
        some (Token.comment (String.mk (c :: run)), rest)
      else if c = '(' then some (Token.lparen, cs)
      else if c = ')' then some (Token.rparen, cs)
      else if c = '-' then
        match cs with
        | '>' :: cs2 => some (Token.arrow, cs2)
        | _ => none
      else if c = '"' then
        match scanStringBody (cs.length + 1) cs with
        | some (body, rest) =>
            match goUnquoteBody (body.length + 1) body with
            | some unq => some (Token.str (String.mk unq), rest)
            | none => none
        | none => none
      else if c = ':' then
        match cs with
        | c2 :: cs2 =>
            if isAlphaChar c2 then
              let (tk, rest) := takeIdentCont cs2
              some (Token.colonIdent (String.mk (c :: c2 :: tk)), rest)
            else none
        | [] => none
      else if isAlphaChar c then
        let (tk, rest) := takeIdentCont cs
        some (Token.ident (String.mk (c :: tk)), rest)
      else if isDigitChar c then
        let (ds, rest) := takeDigits cs
        match rest with
        | '.' :: r2 =>
            match takeDigits r2 with
            | (f :: fs, rest2) =>
                some (Token.number (String.mk
                  (c :: ds ++ '.' :: f :: fs)), rest2)
            | ([], _) => some (Token.number (String.mk (c :: ds)), '.' :: r2)
        | _ => some (Token.number (String.mk (c :: ds)), rest)
      else none

def tokenizeAux : Nat → List Char → Except String (List Token)
  | 0, _ => Except.error "lexer: out of fuel"
  | _ + 1, [] => Except.ok []
  | fuel + 1, cs =>
      match nextToken cs with
      | none => Except.error "lexer: no token rule matches"
      | some (t, rest) =>
          match tokenizeAux fuel rest with
          | Except.ok toks => Except.ok (t :: toks)
          | Except.error e => Except.error e

/-- Tokenize raw text into the full token stream the parser receives:
whitespace and comment tokens included, since buildParser installs no
Elide option. -/
def tokenize (s : String) : Except String (List Token) :=
  tokenizeAux (s.data.length + 1) s.data

/-! ## Generic parse tree (`Sexpr`/`List`/`Atom`) and the recursive parser -/

/-- Atom node: exactly one of a quoted string (already unquoted), numeric
literal text, or a bare symbol captured from Ident or ColonIdent tokens. -/
inductive Atom where
  | str (s : String)
  | num (s : String)
  | sym (s : String)
  deriving DecidableEq, Repr

/-- Generic tree node: either a list `( elements* )` or an atom. -/
inductive Sexpr where
  | list (elements : List Sexpr)
  | atom (a : Atom)
  deriving Repr

mutual

/-- Parse one `Sexpr` node from the token stream (fuel-indexed recursion).
Whitespace and Comment tokens match no production of the `Sexpr` grammar
(`"(" @@* ")"` / `@String | @Number | @Ident | @ColonIdent`), so meeting one
is a syntax error, exactly as in the parser built without an Elide option. -/
def parseSexprF : Nat → List Token → Except String (Sexpr × List Token)
  | 0, _ => Except.error "parser: out of fuel"
  | fuel + 1, ts =>
      match ts with
      | [] => Except.error "unexpected end of input"
      | Token.lparen :: rest =>
          match parseElemsF fuel rest with
          | Except.ok (els, rest2) => Except.ok (Sexpr.list els, rest2)
          | Except.error e => Except.error e
      | Token.rparen :: _ => Except.error "unexpected token )"
      | Token.arrow :: _ => Except.error "unexpected token ->"
      | Token.whitespace _ :: _ => Except.error "unexpected token Whitespace"
      | Token.comment _ :: _ => Except.error "unexpected token Comment"
      | Token.str s :: rest => Except.ok (Sexpr.atom (Atom.str s), rest)
      | Token.number s :: rest => Except.ok (Sexpr.atom (Atom.num s), rest)
      | Token.ident s :: rest => Except.ok (Sexpr.atom (Atom.sym s), rest)
      | Token.colonIdent s :: rest => Except.ok (Sexpr.atom (Atom.sym s), rest)

/-- Parse list elements until the closing paren. -/
def parseElemsF : Nat → List Token → Except String (List Sexpr × List Token)
  | 0, _ => Except.error "parser: out of fuel"
  | fuel + 1, ts =>
      match ts with
      | Token.rparen :: rest => Except.ok ([], rest)
      | [] => Except.error "missing closing paren"
      | _ =>
          match parseSexprF fuel ts with
          | Except.ok (e, rest) =>
              match parseElemsF fuel rest with
              | Except.ok (es, rest2) => Except.ok (e :: es, rest2)
              | Except.error err => Except.error err
          | Except.error err => Except.error err

end

/-- Parse a complete token stream into exactly one root node; trailing
tokens after the root are a terminal parse error. -/
def parseTop (ts : List Token) : Except String Sexpr :=
  match parseSexprF ((ts.length + 1) * 2) ts with
  | Except.ok (root, []) => Except.ok root
  | Except.ok (_, _ :: _) => Except.error "unexpected trailing input"
  | Except.error e => Except.error e

/-! ## Typed document (internal/ast, map-based version) -/

abbrev GoTime := Int

/-- Tagged model of the `interface{}` values `atomValue` produces.  The Go
dynamic type of `.str`, `.sym` and `.numText` is `string` (symbols and
unparsable number text are plain Go strings); `.float` carries the source
literal since IEEE float semantics are not modelled. -/
inductive GoVal where
  | str (s : String)
  | uint (n : Nat)
  | float (lit : String)
  | boolV (b : Bool)
  | sym (s : String)
  | numText (s : String)
  | nil
  deriving DecidableEq, Repr

structure Meta where
  requestID : String
  version : Nat
  createdAt : GoTime
  updatedAt : GoTime
  deriving DecidableEq, Repr

structure Expr where
  kind : String
  path : String
  deriving DecidableEq, Repr

structure ActionCall where
  name : String
  args : List (String × GoVal)
  deriving DecidableEq, Repr

structure Transition where
  fromState : String
  toState : String
  guard : Option Expr
  effects : List ActionCall
  deriving DecidableEq, Repr

structure Lifecycle where
  states : List String
  initial : String
  transitions : List Transition
  deriving DecidableEq, Repr

structure AttrVal where
  value : GoVal
  provenance : Option String
  neededBy : List String
  deriving DecidableEq, Repr

structure Entity where
  id : String
  typ : String
  attrs : List (String × AttrVal)
  deriving DecidableEq, Repr

structure RequireItem where
  kind : String
  id : String
  deriving DecidableEq, Repr

structure Resource where
  id : String
  typ : String
  requires : List RequireItem
  config : List (String × GoVal)
  deriving DecidableEq, Repr

structure Task where
  id : String
  /-- Go field `On` (the resource a task runs on); `on` is reserved in Lean. -/
  onField : String
  op : String
  args : List (String × GoVal)
  needs : List String
  produces : List String
  labels : List String
  deriving DecidableEq, Repr

structure Gate where
  id : String
  condition : String
  deriving DecidableEq, Repr

structure Fork where
  id : String
  branches : List String
  deriving DecidableEq, Repr

structure Join where
  id : String
  after : List String
  deriving DecidableEq, Repr

/-- Step: `Kind` is "task"|"gate"|"fork"|"join" with the matching pointer
set; the others are nil. -/
structure Step where
  kind : String
  task : Option Task
  gate : Option Gate
  fork : Option Fork
  join : Option Join
  deriving DecidableEq, Repr

structure Flow where
  id : String
  doc : Option String
  steps : List Step
  deriving DecidableEq, Repr

structure Policy where
  name : String
  kv : List (String × GoVal)
  deriving DecidableEq, Repr

structure AttrDef where
  typ : String
  enum : Option (List String)
  format : Option String
  pii : Option Bool
  deriving DecidableEq, Repr

structure ParamDef where
  typ : String
  required : Bool
  enum : Option (List String)
  deriving DecidableEq, Repr

structure ActionDef where
  params : List (String × ParamDef)
  needs : List String
  produces : List String
  deriving DecidableEq, Repr

structure Catalog where
  attributes : List (String × AttrDef)
  actions : List (String × ActionDef)
  deriving DecidableEq, Repr

structure Orchestrator where
  lifecycle : Lifecycle
  entities : List (String × Entity)
  resources : List (String × Resource)
  flows : List (String × Flow)
  policies : List Policy
  deriving DecidableEq, Repr

structure Request where
  meta : Option Meta
  orchestrator : Orchestrator
  catalog : Option Catalog
  deriving DecidableEq, Repr


/-! ## strconv and time modelling -/

def digitsToNat (cs : List Char) : Nat :=
  cs.foldl (fun n c => n * 10 + (c.toNat - '0'.toNat)) 0

/-- strconv.ParseUint(s, 10, 64): succeeds on a non-empty all-digit string
whose value fits in 64 bits (no sign, no underscores in base 10). -/
def goParseUint (s : String) : Option Nat :=
  if s.data ≠ [] ∧ s.data.all isDigitChar then
    let v := digitsToNat s.data
    if v < 2 ^ 64 then some v else none
  else none

/-- The value `strconv.ParseUint` returns when its error is discarded
(`m.Version, _ = strconv.ParseUint(...)`): 0 on a syntax error and
MaxUint64 on a range error. -/
def goParseUintLoose (s : String) : Nat :=
  if s.data ≠ [] ∧ s.data.all isDigitChar then
    let v := digitsToNat s.data
    if v < 2 ^ 64 then v else 2 ^ 64 - 1
  else 0

/-- Success of strconv.ParseFloat(s, 64), modelled on the shapes this lexer
can put in a Number atom (`[0-9]+(\.[0-9]+)?`): such a literal is accepted
unless astronomically long (float64 overflow, approximated as more than 309
integer digits).  Go accepts further syntaxes (signs, exponents, inf/nan,
hex) that no Number token of this grammar ever carries; those shapes are
mapped to `false` here and no theorem evaluates this function on them. -/
def goParseFloatOk (s : String) : Bool :=
  let (intPart, rest) := takeDigits s.data
  if intPart.isEmpty then false
  else
    match rest with
    | [] => intPart.length ≤ 309
    | '.' :: r2 =>
        let (frac, r3) := takeDigits r2
        !frac.isEmpty && r3.isEmpty && intPart.length ≤ 309
    | _ => false

def isLeapYear (y : Nat) : Bool :=
  (y % 4 = 0 && y % 100 ≠ 0) || y % 400 = 0

def daysInMonth (y m : Nat) : Nat :=
  if m = 1 then 31
  else if m = 2 then (if isLeapYear y then 29 else 28)
  else if m = 3 then 31
  else if m = 4 then 30
  else if m = 5 then 31
  else if m = 6 then 30
  else if m = 7 then 31
  else if m = 8 then 31
  else if m = 9 then 30
  else if m = 10 then 31
  else if m = 11 then 30
  else 31

def daysBeforeMonth (y m : Nat) : Nat :=
  let base :=
    if m = 1 then 0
    else if m = 2 then 31
    else if m = 3 then 59
    else if m = 4 then 90
    else if m = 5 then 120
    else if m = 6 then 151
    else if m = 7 then 181
    else if m = 8 then 212
    else if m = 9 then 243
    else if m = 10 then 273
    else if m = 11 then 304
    else 334
  if 3 ≤ m ∧ isLeapYear y then base + 1 else base

/-- Days since 0001-01-01 of a proleptic-Gregorian civil date. -/
def daysFromCivil (y m d : Nat) : Nat :=
  365 * (y - 1) + (y - 1) / 4 - (y - 1) / 100 + (y - 1) / 400 +
    daysBeforeMonth y m + (d - 1)

/-- Inverse of `daysFromCivil` (era-based civil-from-days algorithm). -/
def civilFromDays (z : Nat) : Nat × Nat × Nat :=
  let z' := z + 306
  let era := z' / 146097
  let doe := z' % 146097
  let yoe := (doe - doe / 1460 + doe / 36524 - doe / 146096) / 365
  let y := yoe + era * 400
  let doy := doe - (365 * yoe + yoe / 4 - yoe / 100)
  let mp := (5 * doy + 2) / 153
  let d := doy - (153 * mp + 2) / 5 + 1
  let m := if mp < 10 then mp + 3 else mp - 9
  if m ≤ 2 then (y + 1, m, d) else (y, m, d)

def readDigitsN : Nat → List Char → Option (Nat × List Char)
  | 0, cs => some (0, cs)
  | n + 1, c :: cs =>
      if isDigitChar c then
        match readDigitsN n cs with
        | some (v, rest) => some ((c.toNat - '0'.toNat) * 10 ^ n + v, rest)
        | none => none
      else none
  | _ + 1, [] => none

def expectChar (c : Char) : List Char → Option (List Char)
  | c' :: cs => if c' = c then some cs else none
  | [] => none

/-- Optional fractional seconds `.digits+`; the value is truncated (Go keeps
nanoseconds, but no claim involves sub-second precision). -/
def skipFraction (cs : List Char) : Option (List Char) :=
  match cs with
  | '.' :: r =>
      let (ds, rest) := takeDigits r
      if ds.isEmpty then none else some rest
  | _ => some cs

/-- Timezone designator of RFC 3339: `Z` or `±hh:mm`; returns the offset in
seconds east of UTC and the remaining input. -/
def readOffset (cs : List Char) : Option (Int × List Char) :=
  match cs with
  | 'Z' :: rest => some (0, rest)
  | '+' :: r => do
      let (hh, r1) ← readDigitsN 2 r
      let r2 ← expectChar ':' r1
      let (mm, r3) ← readDigitsN 2 r2
      if hh ≤ 23 ∧ mm ≤ 59 then some ((hh * 3600 + mm * 60 : Nat), r3) else none
  | '-' :: r => do
      let (hh, r1) ← readDigitsN 2 r
      let r2 ← expectChar ':' r1
      let (mm, r3) ← readDigitsN 2 r2
      if hh ≤ 23 ∧ mm ≤ 59 then some (-(hh * 3600 + mm * 60 : Nat), r3) else none
  | _ => none

/-- The `YYYY-MM-DD` prefix: year, month, day and the remaining input. -/
def readDate (cs : List Char) : Option (Nat × Nat × Nat × List Char) := do
  let (y, r1) ← readDigitsN 4 cs
  let r2 ← expectChar '-' r1
  let (mo, r3) ← readDigitsN 2 r2
  let r4 ← expectChar '-' r3
  let (d, r5) ← readDigitsN 2 r4
  some (y, mo, d, r5)

/-- The `HH:MM:SS` part: hour, minute, second and the remaining input. -/
def readClock (cs : List Char) : Option (Nat × Nat × Nat × List Char) := do
  let (h, r1) ← readDigitsN 2 cs
  let r2 ← expectChar ':' r1
  let (mi, r3) ← readDigitsN 2 r2
  let r4 ← expectChar ':' r3
  let (sec, r5) ← readDigitsN 2 r4
  some (h, mi, sec, r5)

/-- Calendar validity of the parsed fields (month 1..12, day valid for the
month and year, clock fields in range).  Years before 1 are not modelled
(the grammar and every document in this development stay in years 1..9999). -/
def dateOk (y mo d h mi sec : Nat) : Bool :=
  1 ≤ y && 1 ≤ mo && mo ≤ 12 && 1 ≤ d && d ≤ daysInMonth y mo &&
    h ≤ 23 && mi ≤ 59 && sec ≤ 59

/-- time.Parse(time.RFC3339, s): `YYYY-MM-DDTHH:MM:SS[.frac](Z|±hh:mm)`,
with calendar-valid fields, as seconds since 0001-01-01T00:00:00 UTC. -/
def rfc3339Parse (s : String) : Option GoTime := do
  let (y, mo, d, r1) ← readDate s.data
  let r2 ← expectChar 'T' r1
  let (h, mi, sec, r3) ← readClock r2
  let r4 ← skipFraction r3
  let (off, r5) ← readOffset r4
  if dateOk y mo d h mi sec && r5.isEmpty then
    some ((daysFromCivil y mo d * 86400 + h * 3600 + mi * 60 + sec : Nat) - off)
  else none

def pad2 (n : Nat) : String :=
  if n < 10 then "0" ++ Nat.repr n else Nat.repr n

def pad4 (n : Nat) : String :=
  if n < 10 then "000" ++ Nat.repr n
  else if n < 100 then "00" ++ Nat.repr n
  else if n < 1000 then "0" ++ Nat.repr n
  else Nat.repr n

/-- t.UTC().Format("2006-01-02T15:04:05Z07:00") for the non-negative times
this development produces. -/
def rfc3339Format (t : GoTime) : String :=
  let n := t.toNat
  let days := n / 86400
  let rem := n % 86400
  match civilFromDays days with
  | (y, m, d) =>
      pad4 y ++ "-" ++ pad2 m ++ "-" ++ pad2 d ++ "T" ++
        pad2 (rem / 3600) ++ ":" ++ pad2 (rem % 3600 / 60) ++ ":" ++
        pad2 (rem % 60) ++ "Z"


/-! ## Semantic mapper (sexprToRequest and helpers) -/

/-- atomText(n) returns the string content of an atom, or "" (the argument
is a possibly-nil pointer: `none` is Go nil, a list node has Atom == nil). -/
def atomText : Option Sexpr → String
  | none => ""
  | some (Sexpr.list _) => ""
  | some (Sexpr.atom (Atom.str s)) => s
  | some (Sexpr.atom (Atom.sym s)) => s
  | some (Sexpr.atom (Atom.num s)) => s

/-- atomValue converts an atom to interface{} (string, uint64, float64, bool):
strings pass through, Number text is tried as uint64 then float64 and
otherwise kept as its text (a Go string), and symbols map to true/false for
the two boolean words and otherwise stay identifier text (a Go string). -/
def atomValue : Option Sexpr → GoVal
  | none => GoVal.nil
  | some (Sexpr.list _) => GoVal.nil
  | some (Sexpr.atom (Atom.str s)) => GoVal.str s
  | some (Sexpr.atom (Atom.num t)) =>
      match goParseUint t with
      | some n => GoVal.uint n
      | none => if goParseFloatOk t then GoVal.float t else GoVal.numText t
  | some (Sexpr.atom (Atom.sym s)) =>
      if s = "true" then GoVal.boolV true
      else if s = "false" then GoVal.boolV false
      else GoVal.sym s

/-- parseKeywordMap walks `key value` pairs: an element that is a symbol atom
starting with ':' takes the following element as its value (and the scan
skips over that value); other elements are stepped over one at a time.  The
final lone element is never a key (the loop bound is `len - 1`).  The Go code
indexes `key[0]`, which would panic on an empty symbol; the lexer never
produces one and the empty symbol is treated as a non-key here. -/
def parseKeywordMapAux : List Sexpr → List (String × Sexpr) →
    List (String × Sexpr)
  | [], m => m
  | [_], m => m
  | x :: y :: rest, m =>
      match x with
      | Sexpr.atom (Atom.sym key) =>
          if key.data.head? = some ':' then
            parseKeywordMapAux rest (goMapInsert m key y)
          else
            parseKeywordMapAux (y :: rest) m
      | _ => parseKeywordMapAux (y :: rest) m

def parseKeywordMap (list : List Sexpr) : List (String × Sexpr) :=
  parseKeywordMapAux list []

/-- One clause of the `:meta` body: `(request-id v)`, `(version v)`,
`(created-at v)`, `(updated-at v)`; a timestamp clause only takes effect
when the value parses as RFC 3339. -/
def metaStep (m : Meta) (kv : Sexpr) : Meta :=
  match kv with
  | Sexpr.list (k0 :: v :: _) =>
      let k := atomText (some k0)
      if k = "request-id" then
        { m with requestID := atomText (some v) }
      else if k = "version" then
        { m with version := goParseUintLoose (atomText (some v)) }
      else if k = "created-at" then
        match rfc3339Parse (atomText (some v)) with
        | some t => { m with createdAt := t }
        | none => m
      else if k = "updated-at" then
        match rfc3339Parse (atomText (some v)) with
        | some t => { m with updatedAt := t }
        | none => m
      else m
  | _ => m

/-- parseMeta: walks the clauses of the body, then defaults: a zero
created-at pulls both timestamps to now; otherwise a zero updated-at copies
created-at.  A non-list body returns the zero Meta with no defaulting. -/
def parseMeta (body : Sexpr) (now : GoTime) : Meta :=
  match body with
  | Sexpr.list l =>
      let m := l.foldl metaStep ⟨"", 0, 0, 0⟩
      if m.createdAt = 0 then { m with createdAt := now, updatedAt := now }
      else if m.updatedAt = 0 then { m with updatedAt := m.createdAt }
      else m
  | _ => ⟨"", 0, 0, 0⟩

def lifecycleStep (lc : Lifecycle) (el : Sexpr) : Lifecycle :=
  match el with
  | Sexpr.list (e0 :: rest) =>
      let key := atomText (some e0)
      if key = "states" then
        { lc with states := lc.states ++ rest.map (fun s => atomText (some s)) }
      else if key = "initial" then
        match rest with
        | v :: _ => { lc with initial := atomText (some v) }
        | [] => lc
      else lc
  | _ => lc

/-- parseLifecycle: `(states ...)` appends every element's text,
`(initial x)` sets the initial state, `(transitions ...)` is left
unparsed (TODO in the source). -/
def parseLifecycle (body : Sexpr) : Lifecycle :=
  match body with
  | Sexpr.list l => l.foldl lifecycleStep ⟨[], "", []⟩
  | _ => ⟨[], "", []⟩

/-- First sub-element that is a list headed by `key`; returns its tail.
Stands for the `for ... { if ...; break }` searches of the source.  (The Go
code reads `Elements[0]`, panicking on an empty inner list; the callers'
grammars never produce one and it is treated as a non-match here.) -/
def findClause (key : String) : List Sexpr → Option (List Sexpr)
  | [] => none
  | Sexpr.list (h :: tl) :: rest =>
      if atomText (some h) = key then some tl else findClause key rest
  | _ :: rest => findClause key rest

def parseAttrsStep (m : List (String × AttrVal)) (el : Sexpr) :
    List (String × AttrVal) :=
  match el with
  | Sexpr.list (e0 :: v :: rest) =>
      let key := atomText (some e0)
      let val := atomValue (some v)
      let kmap := parseKeywordMap rest
      let prov :=
        match goMapGet kmap ":provenance" with
        | some p => some (atomText (some p))
        | none => none
      goMapInsert m key ⟨val, prov, []⟩
  | _ => m

def parseAttrs (list : List Sexpr) : List (String × AttrVal) :=
  list.foldl parseAttrsStep []

def parseEntitiesStep (m : List (String × Entity)) (el : Sexpr) :
    List (String × Entity) :=
  match el with
  | Sexpr.list (h :: tl) =>
      if atomText (some h) = "entity" then
        let kmap := parseKeywordMap tl
        let id := atomText (goMapGet kmap ":id")
        let attrs :=
          match findClause "attrs" tl with
          | some inner => parseAttrs inner
          | none => []
        goMapInsert m id ⟨id, atomText (goMapGet kmap ":type"), attrs⟩
      else m
  | _ => m

def parseEntities (body : Sexpr) : List (String × Entity) :=
  match body with
  | Sexpr.list l => l.foldl parseEntitiesStep []
  | _ => []

def parseRequiresStep (items : List RequireItem) (el : Sexpr) :
    List RequireItem :=
  match el with
  | Sexpr.list [a, b] =>
      items ++ [⟨atomText (some a), atomText (some b)⟩]
  | _ => items

def parseRequires (list : List Sexpr) : List RequireItem :=
  list.foldl parseRequiresStep []

def parseConfigStep (m : List (String × GoVal)) (el : Sexpr) :
    List (String × GoVal) :=
  match el with
  | Sexpr.list [a, b] => goMapInsert m (atomText (some a)) (atomValue (some b))
  | _ => m

def parseConfig (list : List Sexpr) : List (String × GoVal) :=
  list.foldl parseConfigStep []

/-- The per-resource sub-element loop: unlike the other searches it has no
break, so a later `requires`/`config` clause overwrites an earlier one. -/
def resourceClauseStep (res : Resource) (el : Sexpr) : Resource :=
  match el with
  | Sexpr.list (e0 :: tl) =>
      let key := atomText (some e0)
      if key = "requires" then { res with requires := parseRequires tl }
      else if key = "config" then { res with config := parseConfig tl }
      else res
  | _ => res

def parseResourcesStep (m : List (String × Resource)) (el : Sexpr) :
    List (String × Resource) :=
  match el with
  | Sexpr.list (h :: tl) =>
      if atomText (some h) = "resource" then
        let kmap := parseKeywordMap tl
        let id := atomText (goMapGet kmap ":id")
        let res : Resource := ⟨id, atomText (goMapGet kmap ":type"), [], []⟩
        goMapInsert m id (tl.foldl resourceClauseStep res)
      else m
  | _ => m

def parseResources (body : Sexpr) : List (String × Resource) :=
  match body with
  | Sexpr.list l => l.foldl parseResourcesStep []
  | _ => []

/-- parseTask on a `(task ...)` element: `:id`/`:on`/`:op` from the keyword
map (missing keys give ""), args from the first `(args ...)` clause. -/
def parseTask (node : Sexpr) : Task :=
  match node with
  | Sexpr.list (_ :: tl) =>
      let kmap := parseKeywordMap tl
      let args :=
        match findClause "args" tl with
        | some inner => parseConfig inner
        | none => []
      ⟨atomText (goMapGet kmap ":id"), atomText (goMapGet kmap ":on"),
        atomText (goMapGet kmap ":op"), args, [], [], []⟩
  | _ => ⟨"", "", "", [], [], [], []⟩

/-- parseGate: `:id` from the keyword map, condition from the first
`(when ...)` clause (whose missing value the Go code would index past;
modelled as ""). -/
def parseGate (node : Sexpr) : Gate :=
  match node with
  | Sexpr.list (_ :: tl) =>
      let kmap := parseKeywordMap tl
      let cond :=
        match findClause "when" tl with
        | some inner => atomText inner.head?
        | none => ""
      ⟨atomText (goMapGet kmap ":id"), cond⟩
  | _ => ⟨"", ""⟩

/-- parseSteps: keeps `task` and `gate` elements, in order; every other
element — fork and join included (TODO in the source) — is skipped. -/
def parseSteps : List Sexpr → List Step
  | [] => []
  | el :: rest =>
      match el with
      | Sexpr.list (h :: _) =>
          let kind := atomText (some h)
          if kind = "task" then
            ⟨"task", some (parseTask el), none, none, none⟩ :: parseSteps rest
          else if kind = "gate" then
            ⟨"gate", none, some (parseGate el), none, none⟩ :: parseSteps rest
          else parseSteps rest
      | _ => parseSteps rest

def parseFlowsStep (m : List (String × Flow)) (el : Sexpr) :
    List (String × Flow) :=
  match el with
  | Sexpr.list (h :: tl) =>
      if atomText (some h) = "flow" then
        let kmap := parseKeywordMap tl
        let id := atomText (goMapGet kmap ":id")
        let steps :=
          match findClause "steps" tl with
          | some inner => parseSteps inner
          | none => []
        goMapInsert m id ⟨id, none, steps⟩
      else m
  | _ => m

def parseFlows (body : Sexpr) : List (String × Flow) :=
  match body with
  | Sexpr.list l => l.foldl parseFlowsStep []
  | _ => []

/-- One pair of the `:orchestrator` body: dispatch on the pair's own head
symbol; `:policies` and anything else fall through unparsed. -/
def orchStep (req : Request) (pair : Sexpr) : Request :=
  match pair with
  | Sexpr.list (h :: val :: _) =>
      match h with
      | Sexpr.atom (Atom.sym hs) =>
          if hs = ":lifecycle" then
            { req with orchestrator :=
                { req.orchestrator with lifecycle := parseLifecycle val } }
          else if hs = ":entities" then
            { req with orchestrator :=
                { req.orchestrator with entities := parseEntities val } }
          else if hs = ":resources" then
            { req with orchestrator :=
                { req.orchestrator with resources := parseResources val } }
          else if hs = ":flows" then
            { req with orchestrator :=
                { req.orchestrator with flows := parseFlows val } }
          else req
      | _ => req
  | _ => req

/-- One top-level section: `head := Elements[0]`, `body := Elements[1]`;
`:meta` maps the body through parseMeta, `:orchestrator` iterates the
body's own elements as pairs, everything else (`:catalog` included) is
ignored.  Sections with fewer than two elements are skipped. -/
def sectionStep (now : GoTime) (req : Request) (sec : Sexpr) : Request :=
  match sec with
  | Sexpr.list (h :: body :: _) =>
      match h with
      | Sexpr.atom (Atom.sym hs) =>
          if hs = ":meta" then { req with meta := some (parseMeta body now) }
          else if hs = ":orchestrator" then
            match body with
            | Sexpr.list pairs => pairs.foldl orchStep req
            | _ => req
          else req
      | _ => req
  | _ => req

/-- sexprToRequest: the root must be a non-empty list whose first element is
the bare symbol `onboarding-request`; the remaining elements are folded as
sections.  `now` stands for the time.Now() read inside parseMeta. -/
def sexprToRequest (root : Sexpr) (now : GoTime) : Except String Request :=
  match root with
  | Sexpr.list [] => Except.error "top level must be a list"
  | Sexpr.atom _ => Except.error "top level must be a list"
  | Sexpr.list (first :: rest) =>
      match first with
      | Sexpr.atom (Atom.sym s) =>
          if s = "onboarding-request" then
            Except.ok (rest.foldl (sectionStep now)
              ⟨none, ⟨⟨[], "", []⟩, [], [], [], []⟩, none⟩)
          else Except.error "expected (onboarding-request ...)"
      | _ => Except.error "expected (onboarding-request ...)"

/-- PartParser.Parse: tokenize, parse one root node, then map to the typed
Request.  `now` is the clock value parseMeta's defaulting reads. -/
def partParserParse (text : String) (now : GoTime) : Except String Request :=
  match tokenize text with
  | Except.error e => Except.error e
  | Except.ok toks =>
      match parseTop toks with
      | Except.error e => Except.error e
      | Except.ok root => sexprToRequest root now


/-! ## Canonical printer (internal/print ToSexpr / printValue) -/

/-- fmt %q for the ASCII strings of this format: quote, escaping `\` `"` and
the common control characters.  (Go additionally escapes other
non-printables; no string in this development contains one.) -/
def goQuoteChar (c : Char) : List Char :=
  if c = '"' then ['\\', '"']
  else if c = '\\' then ['\\', '\\']
  else if c = '\n' then ['\\', 'n']
  else if c = '\t' then ['\\', 't']
  else if c = '\r' then ['\\', 'r']
  else [c]

def goQuote (s : String) : String :=
  String.mk ('"' :: s.data.foldr (fun c acc => goQuoteChar c ++ acc) ['"'])

/-- printValue switches on the dynamic Go type: strings (quoted strings,
symbols and unparsed number text alike) print %q-quoted; uint64 prints
through %d; float64 hits the `%d` verb as a non-integer, producing fmt's
bad-verb output (its value shown here through the stored literal); bool
prints true/false; nil falls to %v. -/
def printValue (v : GoVal) : String :=
  match v with
  | GoVal.str s => goQuote s
  | GoVal.sym s => goQuote s
  | GoVal.numText s => goQuote s
  | GoVal.uint n => Nat.repr n
  | GoVal.float lit => "%!d(float64=" ++ lit ++ ")"
  | GoVal.boolV b => if b then "true" else "false"
  | GoVal.nil => "<nil>"

def metaSection : Option Meta → String
  | none => ""
  | some m =>
      "  (:meta\n    (request-id " ++ goQuote m.requestID ++ ")\n" ++
      "    (version " ++ Nat.repr m.version ++ ")\n" ++
      (if m.createdAt = 0 then ""
       else "    (created-at " ++ goQuote (rfc3339Format m.createdAt) ++ ")\n") ++
      (if m.updatedAt = 0 then ""
       else "    (updated-at " ++ goQuote (rfc3339Format m.updatedAt) ++ ")\n") ++
      "  )\n"

def statesLine (lc : Lifecycle) : String :=
  "      (states" ++
    (if lc.states.isEmpty then
      " draft validated compiled executing completed failed"
     else String.join (lc.states.map (fun st => " " ++ st))) ++
    ")\n"

def initialLine (lc : Lifecycle) : String :=
  if lc.initial = "" then "      (initial draft)\n"
  else "      (initial " ++ lc.initial ++ ")\n"

def lifecycleSection (lc : Lifecycle) : String :=
  "    (:lifecycle\n" ++ statesLine lc ++ initialLine lc ++
    "      (transitions)\n" ++ "    )\n"

def attrLine (kv : String × AttrVal) : String :=
  "          (" ++ kv.1 ++ " " ++ printValue kv.2.value ++ ")\n"

def entityBlock (e : Entity) : String :=
  "      (entity :id " ++ goQuote e.id ++ " :type " ++ e.typ ++ "\n" ++
    "        (attrs\n" ++ String.join (e.attrs.map attrLine) ++
    "        ))\n"

/-- The `(:entities ...)` block; iteration follows the association list,
which stands for Go's map iteration order. -/
def entitiesSection (ents : List (String × Entity)) : String :=
  "    (:entities" ++
    (if ents.isEmpty then ")\n"
     else "\n" ++ String.join (ents.map (fun p => entityBlock p.2)) ++ "    )\n")

def resourceBlock (r : Resource) : String :=
  "      (resource :id " ++ goQuote r.id ++ " :type " ++ r.typ ++ ")\n"

def resourcesSection (rs : List (String × Resource)) : String :=
  "    (:resources" ++
    (if rs.isEmpty then ")\n"
     else "\n" ++ String.join (rs.map (fun p => resourceBlock p.2)) ++ "    )\n")

/-- One step line: the source switches on Kind and dereferences the matching
pointer (a mismatched nil pointer would panic in Go; mapper-produced steps
are always consistent and the nil case prints nothing here). -/
def stepLine (s : Step) : String :=
  if s.kind = "task" then
    match s.task with
    | some t =>
        "          (task :id " ++ goQuote t.id ++ " :on " ++ goQuote t.onField ++
          " :op " ++ t.op ++ ")\n"
    | none => ""
  else if s.kind = "gate" then
    match s.gate with
    | some g =>
        "          (gate :id " ++ goQuote g.id ++ " (when " ++
          goQuote g.condition ++ "))\n"
    | none => ""
  else ""

def flowBlock (f : Flow) : String :=
  "      (flow :id " ++ goQuote f.id ++ "\n" ++ "        (steps\n" ++
    String.join (f.steps.map stepLine) ++ "        ))\n"

def flowsSection (fs : List (String × Flow)) : String :=
  "    (:flows" ++
    (if fs.isEmpty then ")\n"
     else "\n" ++ String.join (fs.map (fun p => flowBlock p.2)) ++ "    )\n")

/-- ToSexpr: the canonical printer.  Meta is skipped when nil; the
orchestrator block always prints, with lifecycle defaults substituted for an
empty state set / initial state, an always-empty transitions clause, and the
entity/resource/flow blocks in map iteration order. -/
def ToSexpr (req : Request) : String :=
  "(onboarding-request\n" ++ metaSection req.meta ++
    "  (:orchestrator\n" ++ lifecycleSection req.orchestrator.lifecycle ++
    entitiesSection req.orchestrator.entities ++
    resourcesSection req.orchestrator.resources ++
    flowsSection req.orchestrator.flows ++
    "  )\n" ++ ")\n"


/-! ## Concrete inputs and predicates used by the claims -/

/-- An element of a `(steps ...)` list is kept by parseSteps exactly when it
is a non-empty list headed by `task` or `gate`. -/
def stepKept (el : Sexpr) : Bool :=
  match el with
  | Sexpr.list (h :: _) =>
      atomText (some h) == "task" || atomText (some h) == "gate"
  | _ => false

/-- A meta clause that would set CreatedAt: a `(created-at v)` list whose
value parses as RFC 3339. -/
def metaClauseSetsCreated (kv : Sexpr) : Bool :=
  match kv with
  | Sexpr.list (k :: v :: _) =>
      atomText (some k) == "created-at" &&
        (rfc3339Parse (atomText (some v))).isSome
  | _ => false

/-- A meta clause that would set UpdatedAt. -/
def metaClauseSetsUpdated (kv : Sexpr) : Bool :=
  match kv with
  | Sexpr.list (k :: v :: _) =>
      atomText (some k) == "updated-at" &&
        (rfc3339Parse (atomText (some v))).isSome
  | _ => false

/-- No clause of the meta body sets CreatedAt (every created-at value, if
any, fails to parse). -/
def noCreatedClause (body : Sexpr) : Bool :=
  match body with
  | Sexpr.list l => l.all (fun kv => !metaClauseSetsCreated kv)
  | _ => true

/-- No clause of the meta body sets UpdatedAt. -/
def noUpdatedClause (body : Sexpr) : Bool :=
  match body with
  | Sexpr.list l => l.all (fun kv => !metaClauseSetsUpdated kv)
  | _ => true

def emptyOrchestrator : Orchestrator := ⟨⟨[], "", []⟩, [], [], [], []⟩

/-- The end-to-end scenario text of the specification (section 8), conformant
to the repository's published EBNF grammar. -/
def scenarioText : String :=
  "(onboarding-request (:meta (request-id \"r1\") (version 1)) " ++
  "(:orchestrator (:lifecycle (states draft active) (initial draft) " ++
  "(transitions)) (:entities (entity :id \"e1\" :type LegalEntity " ++
  "(attrs (name \"Acme\"))))))"

/-- A whitespace-free request text — the only kind of input the parser
(built without an Elide option) can accept.  Adjacent tokens are separated
by parens and quotes; the version value is a quoted string, since an Ident
directly followed by a Number would lex as one Ident. -/
def c1text : String :=
  "(onboarding-request(:meta((request-id\"r1\")(version\"1\")" ++
  "(created-at\"2024-01-02T00:00:00Z\")(updated-at\"2024-01-02T00:00:00Z\"))))"

/-- The Document the mapper produces from `c1text`. -/
def c1doc : Request :=
  ⟨some ⟨"r1", 1, 63839750400, 63839750400⟩, emptyOrchestrator, none⟩

def c2attrsA : List (String × AttrVal) :=
  [("a", ⟨GoVal.uint 1, none, []⟩), ("b", ⟨GoVal.uint 2, none, []⟩)]

def c2attrsB : List (String × AttrVal) :=
  [("b", ⟨GoVal.uint 2, none, []⟩), ("a", ⟨GoVal.uint 1, none, []⟩)]

/-- A document with one entity whose attrs mapping is given in a chosen
iteration order; two permutations of the association list denote the same
Go map. -/
def c2doc (attrs : List (String × AttrVal)) : Request :=
  ⟨none, ⟨⟨[], "", []⟩, [("e1", ⟨"e1", "T", attrs⟩)], [], [], []⟩, none⟩

/-- A request whose only meta clause carries an unparsable timestamp
(whitespace-free, so the parser accepts it). -/
def c6text : String :=
  "(onboarding-request(:meta((created-at\"not-a-date\"))))"

def c6doc : Request := ⟨some ⟨"", 0, 100, 100⟩, emptyOrchestrator, none⟩

/-- A request whose meta carries an updated-at strictly before created-at
(whitespace-free, so the parser accepts it). -/
def c7text : String :=
  "(onboarding-request(:meta((request-id\"r2\")(version\"1\")" ++
  "(created-at\"2024-01-02T00:00:00Z\")(updated-at\"2023-01-01T00:00:00Z\"))))"

def c7doc : Request :=
  ⟨some ⟨"r2", 1, 63839750400, 63808128000⟩, emptyOrchestrator, none⟩

def emptyLifecycleReq : Request := ⟨none, emptyOrchestrator, none⟩


/-- The root shape sexprToRequest accepts: a non-empty list whose first
element is the bare symbol `onboarding-request`. -/
def headIsOnboardingRequest : Sexpr → Bool
  | Sexpr.list (Sexpr.atom (Atom.sym s) :: _) => s == "onboarding-request"
  | _ => false

/-- A meta body holding a single created-at clause whose value does not
parse as RFC 3339. -/
def c6clause : List Sexpr :=
  [Sexpr.list [Sexpr.atom (Atom.sym "created-at"), Sexpr.atom (Atom.str "nope")]]

deriving instance DecidableEq for Except

set_option maxRecDepth 16000

/-! ## Helper lemmas -/

theorem metaStep_createdAt (m : Meta) (kv : Sexpr)
    (h : metaClauseSetsCreated kv = false) :
    (metaStep m kv).createdAt = m.createdAt := by
  cases kv with
  | atom a => rfl
  | list l =>
    cases l with
    | nil => rfl
    | cons k0 l2 =>
      cases l2 with
      | nil => rfl
      | cons v rest =>
        simp only [metaClauseSetsCreated] at h
        simp only [metaStep]
        split_ifs with h1 h2 h3 h4
        · rfl
        · rfl
        · cases hp : rfc3339Parse (atomText (some v)) with
          | none => rfl
          | some t =>
            rw [h3, hp] at h
            simp at h
        · cases rfc3339Parse (atomText (some v)) <;> rfl
        · rfl

theorem metaStep_updatedAt (m : Meta) (kv : Sexpr)
    (h : metaClauseSetsUpdated kv = false) :
    (metaStep m kv).updatedAt = m.updatedAt := by
  cases kv with
  | atom a => rfl
  | list l =>
    cases l with
    | nil => rfl
    | cons k0 l2 =>
      cases l2 with
      | nil => rfl
      | cons v rest =>
        simp only [metaClauseSetsUpdated] at h
        simp only [metaStep]
        split_ifs with h1 h2 h3 h4
        · rfl
        · rfl
        · cases rfc3339Parse (atomText (some v)) <;> rfl
        · cases hp : rfc3339Parse (atomText (some v)) with
          | none => rfl
          | some t =>
            rw [h4, hp] at h
            simp at h
        · rfl

theorem foldl_metaStep_createdAt (l : List Sexpr) (m : Meta)
    (h : l.all (fun kv => !metaClauseSetsCreated kv) = true) :
    (l.foldl metaStep m).createdAt = m.createdAt := by
  induction l generalizing m with
  | nil => rfl
  | cons kv rest ih =>
    rw [List.all_cons, Bool.and_eq_true] at h
    have h1 : metaClauseSetsCreated kv = false := by
      simpa using h.1
    rw [List.foldl_cons, ih (metaStep m kv) h.2, metaStep_createdAt m kv h1]

theorem foldl_metaStep_updatedAt (l : List Sexpr) (m : Meta)
    (h : l.all (fun kv => !metaClauseSetsUpdated kv) = true) :
    (l.foldl metaStep m).updatedAt = m.updatedAt := by
  induction l generalizing m with
  | nil => rfl
  | cons kv rest ih =>
    rw [List.all_cons, Bool.and_eq_true] at h
    have h1 : metaClauseSetsUpdated kv = false := by
      simpa using h.1
    rw [List.foldl_cons, ih (metaStep m kv) h.2, metaStep_updatedAt m kv h1]

theorem resourceClauseStep_keeps (res : Resource) (el : Sexpr) :
    (resourceClauseStep res el).id = res.id ∧
    (resourceClauseStep res el).typ = res.typ := by
  cases el with
  | atom a => exact ⟨rfl, rfl⟩
  | list l =>
    cases l with
    | nil => exact ⟨rfl, rfl⟩
    | cons e0 tl =>
      simp only [resourceClauseStep]
      split_ifs <;> exact ⟨rfl, rfl⟩

theorem foldl_resourceClauseStep_keeps (tl : List Sexpr) (res : Resource) :
    (tl.foldl resourceClauseStep res).id = res.id ∧
    (tl.foldl resourceClauseStep res).typ = res.typ := by
  induction tl generalizing res with
  | nil => exact ⟨rfl, rfl⟩
  | cons e rest ih =>
    rw [List.foldl_cons]
    have h1 := resourceClauseStep_keeps res e
    have h2 := ih (resourceClauseStep res e)
    exact ⟨h2.1.trans h1.1, h2.2.trans h1.2⟩


/-! ## Claim theorems -/

/-- Claim C1: round-trip idempotence fails on the code.  The parser is
built without eliding Whitespace/Comment tokens, so it rejects every
whitespace-bearing input: the specification's own end-to-end scenario text
(grammar-conformant per the repository EBNF) is rejected outright, and for
a Document the mapper does produce (from a whitespace-free text), the
printed form — which always contains newlines and spaces — is rejected as
well, so map(tokenize_and_parse(print(d))) returns an error, never a
Document equal to d. -/
theorem roundtrip_fails_on_printed_text :
    (∃ e, partParserParse scenarioText 100 = Except.error e) ∧
    partParserParse c1text 100 = Except.ok c1doc ∧
    c1doc.meta.map Meta.requestID = some "r1" ∧
    (∃ e, partParserParse (ToSexpr c1doc) 200 = Except.error e) := by
  refine ⟨⟨"unexpected token Whitespace", by decide⟩, by decide, rfl,
    ⟨"unexpected token Whitespace", by decide⟩⟩

/-- Claim C2: printer canonicalization fails on the code.  Two documents
equal up to a permutation of the attrs mapping (the same Go map, presented
in its two possible iteration orders) print to different bytes: the printer
emits unordered-map entries in iteration order, not sorted by key. -/
theorem printer_not_canonical_on_attr_permutation :
    c2attrsA.Perm c2attrsB ∧
    ToSexpr (c2doc c2attrsA) ≠ ToSexpr (c2doc c2attrsB) := by
  refine ⟨by decide, by decide⟩

/-- Claim C3: atom-to-Value classification.  Number text is tried as an
unsigned 64-bit integer first ("42" gives an unsigned-integer value, and in
general any successful ParseUint wins), then as a decimal ("3.14" gives a
float), the bare symbol draft stays a symbol, and the bare symbols
true/false become booleans. -/
theorem atomValue_disambiguation :
    (∀ (t : String) (n : Nat), goParseUint t = some n →
        atomValue (some (Sexpr.atom (Atom.num t))) = GoVal.uint n) ∧
    atomValue (some (Sexpr.atom (Atom.num "42"))) = GoVal.uint 42 ∧
    atomValue (some (Sexpr.atom (Atom.num "3.14"))) = GoVal.float "3.14" ∧
    atomValue (some (Sexpr.atom (Atom.sym "draft"))) = GoVal.sym "draft" ∧
    atomValue (some (Sexpr.atom (Atom.sym "true"))) = GoVal.boolV true ∧
    atomValue (some (Sexpr.atom (Atom.sym "false"))) = GoVal.boolV false := by
  refine ⟨?_, by decide, by decide, by decide, by decide, by decide⟩
  intro t n h
  simp [atomValue, h]

/-- Witness for C3 at the concrete input "7". -/
theorem atomValue_disambiguation_witness :
    goParseUint "7" = some 7 ∧
    atomValue (some (Sexpr.atom (Atom.num "7"))) = GoVal.uint 7 :=
  ⟨by decide, atomValue_disambiguation.1 "7" 7 (by decide)⟩

/-- Claim C4: every generic tree whose root is not a list headed by the bare
symbol onboarding-request is rejected by the semantic mapper with one of its
two shape errors (the code's rendering of MappingError::NotARequest), and no
Document is returned. -/
theorem sexprToRequest_rejects_non_request (root : Sexpr) (now : GoTime)
    (h : headIsOnboardingRequest root = false) :
    sexprToRequest root now = Except.error "top level must be a list" ∨
    sexprToRequest root now = Except.error "expected (onboarding-request ...)" := by
  cases root with
  | atom a => exact Or.inl rfl
  | list l =>
    cases l with
    | nil => exact Or.inl rfl
    | cons first rest =>
      cases first with
      | list l2 => exact Or.inr rfl
      | atom a =>
        cases a with
        | str s => exact Or.inr rfl
        | num s => exact Or.inr rfl
        | sym s =>
          have hne : s ≠ "onboarding-request" := by
            simpa [headIsOnboardingRequest] using h
          exact Or.inr (by simp [sexprToRequest, hne])

/-- Witness for C4 at a concrete non-request root. -/
theorem sexprToRequest_rejects_non_request_witness :
    headIsOnboardingRequest (Sexpr.atom (Atom.sym "x")) = false ∧
    (sexprToRequest (Sexpr.atom (Atom.sym "x")) 0 =
        Except.error "top level must be a list" ∨
      sexprToRequest (Sexpr.atom (Atom.sym "x")) 0 =
        Except.error "expected (onboarding-request ...)") :=
  ⟨rfl, sexprToRequest_rejects_non_request (Sexpr.atom (Atom.sym "x")) 0 rfl⟩

/-- Claim C5: a required keyword field (:id, :type, :on, :op) absent from an
element's association list maps to the empty string and the element is still
produced — for tasks, gates, entities, resources and flows alike. -/
theorem missing_required_fields_map_to_empty :
    (∀ (hd : Sexpr) (tl : List Sexpr),
        goMapGet (parseKeywordMap tl) ":id" = none →
        (parseTask (Sexpr.list (hd :: tl))).id = "") ∧
    (∀ (hd : Sexpr) (tl : List Sexpr),
        goMapGet (parseKeywordMap tl) ":on" = none →
        (parseTask (Sexpr.list (hd :: tl))).onField = "") ∧
    (∀ (hd : Sexpr) (tl : List Sexpr),
        goMapGet (parseKeywordMap tl) ":op" = none →
        (parseTask (Sexpr.list (hd :: tl))).op = "") ∧
    (∀ (hd : Sexpr) (tl : List Sexpr),
        goMapGet (parseKeywordMap tl) ":id" = none →
        (parseGate (Sexpr.list (hd :: tl))).id = "") ∧
    (∀ tl : List Sexpr,
        goMapGet (parseKeywordMap tl) ":id" = none →
        goMapGet (parseKeywordMap tl) ":type" = none →
        ∃ a, parseEntities
            (Sexpr.list [Sexpr.list (Sexpr.atom (Atom.sym "entity") :: tl)]) =
          [("", ⟨"", "", a⟩)]) ∧
    (∀ tl : List Sexpr,
        goMapGet (parseKeywordMap tl) ":id" = none →
        goMapGet (parseKeywordMap tl) ":type" = none →
        ∃ r, parseResources
            (Sexpr.list [Sexpr.list (Sexpr.atom (Atom.sym "resource") :: tl)]) =
          [("", r)] ∧ r.id = "" ∧ r.typ = "") ∧
    (∀ tl : List Sexpr,
        goMapGet (parseKeywordMap tl) ":id" = none →
        ∃ st, parseFlows
            (Sexpr.list [Sexpr.list (Sexpr.atom (Atom.sym "flow") :: tl)]) =
          [("", ⟨"", none, st⟩)]) := by
  refine ⟨?_, ?_, ?_, ?_, ?_, ?_, ?_⟩
  · intro hd tl h
    simp [parseTask, h, atomText]
  · intro hd tl h
    simp [parseTask, h, atomText]
  · intro hd tl h
    simp [parseTask, h, atomText]
  · intro hd tl h
    simp [parseGate, h, atomText]
  · intro tl h1 h2
    refine ⟨(match findClause "attrs" tl with
      | some inner => parseAttrs inner
      | none => []), ?_⟩
    simp [parseEntities, parseEntitiesStep, h1, h2, atomText, goMapInsert]
  · intro tl h1 h2
    refine ⟨tl.foldl resourceClauseStep ⟨"", "", [], []⟩, ?_, ?_, ?_⟩
    · simp [parseResources, parseResourcesStep, h1, h2, atomText, goMapInsert]
    · exact (foldl_resourceClauseStep_keeps tl ⟨"", "", [], []⟩).1
    · exact (foldl_resourceClauseStep_keeps tl ⟨"", "", [], []⟩).2
  · intro tl h1
    refine ⟨(match findClause "steps" tl with
      | some inner => parseSteps inner
      | none => []), ?_⟩
    simp [parseFlows, parseFlowsStep, h1, atomText, goMapInsert]

/-- Witness for C5 at elements whose association lists are empty. -/
theorem missing_required_fields_map_to_empty_witness :
    goMapGet (parseKeywordMap ([] : List Sexpr)) ":id" = none ∧
    (parseTask (Sexpr.list [Sexpr.atom (Atom.sym "task")])).id = "" ∧
    (parseTask (Sexpr.list [Sexpr.atom (Atom.sym "task")])).onField = "" ∧
    (parseGate (Sexpr.list [Sexpr.atom (Atom.sym "gate")])).id = "" :=
  ⟨rfl, missing_required_fields_map_to_empty.1 (Sexpr.atom (Atom.sym "task")) [] rfl,
    missing_required_fields_map_to_empty.2.1 (Sexpr.atom (Atom.sym "task")) [] rfl,
    missing_required_fields_map_to_empty.2.2.2.1 (Sexpr.atom (Atom.sym "gate")) [] rfl⟩

/-- Claim C6 counterexample: a meta section whose created-at value is not
valid RFC 3339 maps successfully, but the resulting field is NOT left at the
zero value — the defaulting step sets it to the current clock (100 here). -/
theorem unparsable_timestamp_not_left_zero :
    partParserParse c6text 100 = Except.ok c6doc ∧
    c6doc.meta.map Meta.createdAt = some 100 ∧
    c6doc.meta.map Meta.createdAt ≠ some 0 := by
  refine ⟨by decide, rfl, by decide⟩

/-- Claim C6 as amended: an unparsable timestamp clause is silently ignored
(the field stays zero during clause processing), after which the defaulting
step fills it with the current time — for a meta body whose created-at and
updated-at clauses all fail to parse, both fields of the resulting Meta
equal now, not zero. -/
theorem unparsable_timestamp_gets_default (l : List Sexpr) (now : GoTime)
    (hc : noCreatedClause (Sexpr.list l) = true)
    (_hu : noUpdatedClause (Sexpr.list l) = true) :
    (parseMeta (Sexpr.list l) now).createdAt = now ∧
    (parseMeta (Sexpr.list l) now).updatedAt = now := by
  simp only [noCreatedClause] at hc
  have h1 : (l.foldl metaStep ⟨"", 0, 0, 0⟩).createdAt = 0 :=
    foldl_metaStep_createdAt l ⟨"", 0, 0, 0⟩ hc
  constructor <;> simp [parseMeta, h1]

/-- Witness for the amended C6 at a concrete unparsable clause and clock 42. -/
theorem unparsable_timestamp_gets_default_witness :
    noCreatedClause (Sexpr.list c6clause) = true ∧
    noUpdatedClause (Sexpr.list c6clause) = true ∧
    (parseMeta (Sexpr.list c6clause) 42).createdAt = 42 ∧
    (parseMeta (Sexpr.list c6clause) 42).updatedAt = 42 :=
  ⟨by decide, by decide,
    (unparsable_timestamp_gets_default c6clause 42 (by decide) (by decide)).1,
    (unparsable_timestamp_gets_default c6clause 42 (by decide) (by decide)).2⟩

/-- Claim C7 counterexample: the mapper accepts a text whose meta carries an
updated-at strictly before created-at, so the invariant
updated_at >= created_at does NOT hold for every accepted input. -/
theorem meta_invariant_violated :
    partParserParse c7text 100 = Except.ok c7doc ∧
    c7doc.meta.map Meta.createdAt = some 63839750400 ∧
    c7doc.meta.map Meta.updatedAt = some 63808128000 ∧
    (63808128000 : GoTime) < 63839750400 := by
  refine ⟨by decide, rfl, rfl, by decide⟩

/-- Claim C7 as amended: the invariant updated_at >= created_at holds
whenever the meta body contains no parsable updated-at clause (the
defaulting step then makes updated_at equal created-at or now); an
explicitly given updated-at is not checked against created-at. -/
theorem meta_invariant_when_no_updated (body : Sexpr) (now : GoTime)
    (h : noUpdatedClause body = true) :
    (parseMeta body now).createdAt ≤ (parseMeta body now).updatedAt := by
  cases body with
  | atom a => exact le_refl 0
  | list l =>
    simp only [noUpdatedClause] at h
    have hu : (l.foldl metaStep ⟨"", 0, 0, 0⟩).updatedAt = 0 :=
      foldl_metaStep_updatedAt l ⟨"", 0, 0, 0⟩ h
    by_cases hc : (l.foldl metaStep ⟨"", 0, 0, 0⟩).createdAt = 0
    · simp [parseMeta, hc]
    · simp [parseMeta, hc, hu]

/-- Witness for the amended C7 at a concrete body and clock 42. -/
theorem meta_invariant_when_no_updated_witness :
    noUpdatedClause (Sexpr.list c6clause) = true ∧
    (parseMeta (Sexpr.list c6clause) 42).createdAt ≤
      (parseMeta (Sexpr.list c6clause) 42).updatedAt :=
  ⟨by decide, meta_invariant_when_no_updated (Sexpr.list c6clause) 42 (by decide)⟩

/-- Claim C8: a Document whose lifecycle is absent (empty state set and
empty initial state) prints the fixed default state set and initial state
draft, and a Document with an empty transitions list prints an empty
transitions clause. -/
theorem printer_default_lifecycle :
    (∀ req : Request,
        req.orchestrator.lifecycle.states = [] →
        req.orchestrator.lifecycle.initial = "" →
        ∃ pre post, ToSexpr req = pre ++
          ("      (states draft validated compiled executing completed failed)\n" ++
            "      (initial draft)\n" ++ "      (transitions)\n") ++ post) ∧
    (∀ req : Request,
        req.orchestrator.lifecycle.transitions = [] →
        ∃ pre post, ToSexpr req = pre ++ "      (transitions)\n" ++ post) := by
  constructor
  · intro req hs hi
    have hS : statesLine req.orchestrator.lifecycle =
        "      (states draft validated compiled executing completed failed)\n" := by
      simp only [statesLine, hs]
      decide
    have hI : initialLine req.orchestrator.lifecycle =
        "      (initial draft)\n" := by
      simp only [initialLine, hi]
      decide
    refine ⟨"(onboarding-request\n" ++ metaSection req.meta ++
        "  (:orchestrator\n" ++ "    (:lifecycle\n",
      "    )\n" ++ entitiesSection req.orchestrator.entities ++
        resourcesSection req.orchestrator.resources ++
        flowsSection req.orchestrator.flows ++ "  )\n" ++ ")\n", ?_⟩
    simp only [ToSexpr, lifecycleSection, hS, hI, String.append_assoc]
  · intro req ht
    refine ⟨"(onboarding-request\n" ++ metaSection req.meta ++
        "  (:orchestrator\n" ++
        ("    (:lifecycle\n" ++ statesLine req.orchestrator.lifecycle ++
          initialLine req.orchestrator.lifecycle),
      "    )\n" ++ entitiesSection req.orchestrator.entities ++
        resourcesSection req.orchestrator.resources ++
        flowsSection req.orchestrator.flows ++ "  )\n" ++ ")\n", ?_⟩
    simp only [ToSexpr, lifecycleSection, String.append_assoc]

/-- Witness for C8 at the empty-lifecycle document. -/
theorem printer_default_lifecycle_witness :
    (∃ pre post, ToSexpr emptyLifecycleReq = pre ++
        ("      (states draft validated compiled executing completed failed)\n" ++
          "      (initial draft)\n" ++ "      (transitions)\n") ++ post) ∧
    (∃ pre post, ToSexpr emptyLifecycleReq = pre ++
        "      (transitions)\n" ++ post) :=
  ⟨printer_default_lifecycle.1 emptyLifecycleReq rfl rfl,
    printer_default_lifecycle.2 emptyLifecycleReq rfl⟩

/-- Claim C9: the lexer has no rule matching a leading minus (Arrow matches
only "->"), so "-5" and "-3.14" fail with a lexer error instead of producing
a single Number token, while the unsigned forms lex fine — contradicting the
grammar documentation's `Number = ["-"] digits ["." digits]`. -/
theorem lexer_rejects_negative_number :
    tokenize "-5" = Except.error "lexer: no token rule matches" ∧
    tokenize "-3.14" = Except.error "lexer: no token rule matches" ∧
    tokenize "5" = Except.ok [Token.number "5"] ∧
    tokenize "3.14" = Except.ok [Token.number "3.14"] := by
  refine ⟨by decide, by decide, by decide, by decide⟩

/-- Claim C10: a steps element whose head symbol is neither task nor gate
(fork and join included) is silently dropped: parseSteps of a list with such
an element equals parseSteps of the list without it, so mapping succeeds and
the flow's step sequence contains no entry for it. -/
theorem parseSteps_drops_unknown_kinds (xs : List Sexpr) (el : Sexpr)
    (ys : List Sexpr) (h : stepKept el = false) :
    parseSteps (xs ++ el :: ys) = parseSteps (xs ++ ys) := by
  induction xs with
  | nil =>
    simp only [List.nil_append]
    cases el with
    | atom a => rfl
    | list l =>
      cases l with
      | nil => rfl
      | cons hd tl =>
        simp only [stepKept, Bool.or_eq_false_iff] at h
        have h1 : atomText (some hd) ≠ "task" := by simpa using h.1
        have h2 : atomText (some hd) ≠ "gate" := by simpa using h.2
        simp [parseSteps, h1, h2]
  | cons x xs ih =>
    cases x with
    | atom a => simpa [parseSteps] using ih
    | list l =>
      cases l with
      | nil => simpa [parseSteps] using ih
      | cons hd tl =>
        simp only [List.cons_append, parseSteps]
        split_ifs <;> simp [ih]

/-- Witness for C10 at a concrete fork step. -/
theorem parseSteps_drops_unknown_kinds_witness :
    stepKept (Sexpr.list [Sexpr.atom (Atom.sym "fork")]) = false ∧
    parseSteps ([] ++ Sexpr.list [Sexpr.atom (Atom.sym "fork")] :: []) =
      parseSteps ([] ++ []) :=
  ⟨rfl, parseSteps_drops_unknown_kinds [] (Sexpr.list [Sexpr.atom (Atom.sym "fork")])
    [] rfl⟩

end DslGo
